import Mathlib

/-!
# Verification of the BinaryCIF document model and codec

Shallow embedding of `src/biotite/structure/io/binarycif/file.py`.

The Python source is an unfinished skeleton.  We embed the statement-level
semantics of each method body: Python runtime errors are modelled with
`Except PyErr`, parsed msgpack values with `RVal`, and object allocation
identity (needed for `_parse`, which constructs every `DataBlock` twice)
with an explicit counter stamping each `DataBlockObj` with a fresh `objId`.

Modelling notes, stated once here:
* The classes inherit `collections.abc.MutableMapping` without implementing
  its abstract methods, so CPython additionally refuses to instantiate most
  of them; we model each method body as written, which is where the
  behaviourally relevant statements live.  Where a method's own statements
  already raise, the embedding is the corresponding constant error.
* A Python truthiness test `if not x:` on a model object is embedded as an
  is-None check, except for `Category` instances, whose truthiness call is
  embedded faithfully (their `__len__` is declared without a `self`
  parameter, so `bool(category)` raises `TypeError`).
* The encoding/decoding transforms themselves are not part of the sources:
  the module `binarycif/decode.py` (imported as `decode_data`) is absent and
  `Data._encode` is an empty TODO stub.  They are modelled from the spec,
  marked `Modelled from the spec:` on each definition.
-/

/-- Python runtime errors raised by the embedded statements. -/
inductive PyErr where
  | typeError (msg : String)
  | keyError (key : String)
  | indexError (msg : String)
  | attributeError (msg : String)
  | nameError (msg : String)
deriving Repr, DecidableEq

/-- A parsed msgpack value, as produced by the external unpacker
(`msgpack.unpackb` with string keys): None, strings, integers, lists and
string-keyed dicts.  Dicts are association lists in key-insertion order,
matching Python dict iteration order. -/
inductive RVal where
  | pyNone
  | str (s : String)
  | int (n : Int)
  | list (xs : List RVal)
  | dict (kvs : List (String × RVal))
deriving Repr

/-- Python subscript `d[k]` on a parsed value: `KeyError` when the key is
absent, `TypeError` when the receiver is not a dict. -/
def RVal.getItem : RVal → String → Except PyErr RVal
  | .dict kvs, k =>
    match List.lookup k kvs with
    | some v => .ok v
    | none => .error (.keyError k)
  | _, _ => .error (.typeError "object is not subscriptable")

/-- Python `d.get(k)`: on a dict, the value or None; on anything else
(in particular None) an `AttributeError`, since only dicts have `.get`. -/
def RVal.dictGet : RVal → String → Except PyErr RVal
  | .dict kvs, k => .ok ((List.lookup k kvs).getD .pyNone)
  | _, _ => .error (.attributeError "object has no attribute get")

/-- Python dict assignment `m[k] = v` on a string-keyed dict: replaces the
value in place when the key exists (keeping its position), appends the new
pair otherwise. -/
def assocSet {α : Type} (m : List (String × α)) (k : String) (v : α) :
    List (String × α) :=
  match m with
  | [] => [(k, v)]
  | (k2, w) :: rest => if k2 = k then (k2, v) :: rest else (k2, w) :: assocSet rest k v

/-- Embedding of class `Data` state (file.py 292-298): the raw payload, the
encoding chain, and the lazy-decode bookkeeping set by `__init__`. -/
structure DataObj where
  dataField : RVal
  encoding : RVal
  is_decoded : Bool
  decoded_data : RVal
deriving Repr

/-- Embedding of `Data.__init__(data, encoding, decoded=False)`
(file.py 293-298): stores both fields, sets `is_decoded` to the `decoded`
argument (False at every call site) and `decoded_data` to None. -/
def Data.init (data encoding : RVal) : DataObj :=
  { dataField := data, encoding := encoding,
    is_decoded := false, decoded_data := RVal.pyNone }

/-- Embedding of class `Column` state (file.py 276-279): `_data`, `_name`,
`_mask`.  In this skeleton `_mask` is always constructed, even when the
caller had no mask to give. -/
structure ColumnObj where
  dataObj : DataObj
  name : RVal
  mask : DataObj
deriving Repr

/-- Embedding of `Column.__init__(name, data, mask)` (file.py 276-279):
`self._data = Data(data['data'], data['encoding'])` subscripts the data dict
(KeyError/TypeError on bad input), then `self._mask =
Data(mask.get('data'), mask.get('encoding'))` calls `.get` on the mask
value, which raises `AttributeError` when the mask is None rather than a
dict. -/
def Column.init (name data mask : RVal) : Except PyErr ColumnObj := do
  let d ← data.getItem "data"
  let e ← data.getItem "encoding"
  let md ← mask.dictGet "data"
  let msk ← mask.dictGet "encoding"
  .ok { dataObj := Data.init d e, name := name, mask := Data.init md msk }

/-- Embedding of `Column._serialize` (file.py 281-289): the guard
`if not mask:` reads a bare name `mask` that is defined nowhere in the
function (the attribute is `self._mask`), so the method raises `NameError`
on every column — in particular it never emits the mask-free form. -/
def ColumnObj.serialize (_c : ColumnObj) : Except PyErr RVal :=
  .error (.nameError "mask")

/-- Embedding of class `Category` state (file.py 236-240): `_columns`,
`_name`, `_row_count`. -/
structure CategoryObj where
  columns : List ColumnObj
  name : RVal
  row_count : RVal
deriving Repr

/-- Embedding of `Category._build_columns` (file.py 242-246): for each raw
column dict it evaluates `col['name']`, `col['data']` and `col['mask']` —
a plain subscript, so a column that carries no `mask` key raises
`KeyError('mask')` — and constructs a `Column` from them. -/
def Category.buildColumns : List RVal → Except PyErr (List ColumnObj)
  | [] => .ok []
  | col :: rest => do
    let nm ← col.getItem "name"
    let dat ← col.getItem "data"
    let msk ← col.getItem "mask"
    let c ← Column.init nm dat msk
    let cs ← Category.buildColumns rest
    .ok (c :: cs)

/-- Embedding of `Category.__init__(name, row_count, raw_columns)`
(file.py 237-240): builds the columns from the raw input, then executes
`self._name = None` and `self._row_count = None`, discarding the `name` and
`row_count` arguments. -/
def Category.init (name row_count : RVal) (raw_columns : RVal) :
    Except PyErr CategoryObj := do
  match raw_columns with
  | .list cols => do
      let cs ← Category.buildColumns cols
      .ok { columns := cs, name := RVal.pyNone, row_count := RVal.pyNone }
  | _ => .error (.typeError "object is not iterable")

/-- Embedding of Python truthiness applied to a `Category` instance:
`bool(category)` calls `Category.__len__`, which is declared without a
`self` parameter (file.py 268-269), so the call raises `TypeError`. -/
def CategoryObj.truth (_c : CategoryObj) : Except PyErr Bool :=
  .error (.typeError "__len__ takes 0 positional arguments but 1 was given")

/-- Embedding of class `DataBlock` state (file.py 200-204): `_header`, the
ordered `_categories` list and the `_category_map` dict, plus an `objId`
recording allocation identity (two constructor calls yield two distinct
objects). -/
structure DataBlockObj where
  objId : Nat
  header : RVal
  categories : List CategoryObj
  category_map : List (String × CategoryObj)
deriving Repr

/-- Embedding of `DataBlock.__init__` together with `_build_categories`
(file.py 200-215).  `_build_categories` runs before the assignment
`self._category_map` is executed, so on a non-empty category list its first
iteration writes `self._category_map[category['name']] = current` on a not
yet existing attribute and raises `AttributeError`; on an empty list it
returns early, after which `__init__` sets `_category_map` to the empty
dict. -/
def DataBlock.init (objId : Nat) (header : RVal) (categories : RVal) :
    Except PyErr DataBlockObj :=
  match categories with
  | .list [] => .ok { objId := objId, header := header,
                      categories := [], category_map := [] }
  | .list (_ :: _) => .error (.attributeError "_category_map")
  | _ => .error (.typeError "object is not iterable")

/-- Embedding of `DataBlock.get_category` (file.py 217-218): a plain
`.get` on `_category_map`, i.e. None when absent. -/
def DataBlockObj.getCat (blk : DataBlockObj) (category_name : String) :
    Option CategoryObj :=
  List.lookup category_name blk.category_map

/-- Embedding of `DataBlock.set_category(category_name, category_dict)`
(file.py 220-228).  When `category_name` is already present, line 221
`if self.get_category(category_name):` evaluates the truthiness of the
stored `Category` instance, which raises `TypeError` (broken `__len__`);
lines 222-228 — including the fall-through that, lacking an `else`, would
append a second category of the same name — are unreachable in that case.
When the name is absent, a new `Category` is built from
`category_dict['name']`, `category_dict['rowCount']`,
`category_dict['columns']`, appended to `_categories` and stored in
`_category_map` under `category_dict['name']`. -/
def DataBlockObj.setCat (blk : DataBlockObj) (category_name : String)
    (category_dict : RVal) : Except PyErr DataBlockObj := do
  match blk.getCat category_name with
  | some c => do
      let _b ← c.truth
      .error (.typeError "unreachable: Category truthiness always raises")
  | none => do
      let nm ← category_dict.getItem "name"
      let rc ← category_dict.getItem "rowCount"
      let cols ← category_dict.getItem "columns"
      let newCat ← Category.init nm rc cols
      match nm with
      | .str s => .ok { blk with
            categories := blk.categories ++ [newCat],
            category_map := assocSet blk.category_map s newCat }
      | _ => .error (.typeError "unhashable key")

/-- Embedding of `BinaryCIFFile` document state (file.py 23-27 as intended):
the ordered `_content` list of data blocks and the `_block_map` lookup
dict.  No value of this type is ever produced by the embedded constructor,
which always raises; the methods are analysed on arbitrary states. -/
structure BCIFObj where
  content : List DataBlockObj
  block_map : List (String × DataBlockObj)
deriving Repr

/-- Embedding of `BinaryCIFFile.__init__` (file.py 23-27):
`self._content = []` followed by `self._content["encoder"] = "UNKNOWN"`
subscript-assigns a string key into a list, which raises `TypeError`
before `_block_map` is ever assigned. -/
def BinaryCIFFile.init : Except PyErr BCIFObj :=
  .error (.typeError "list indices must be integers or slices, not str")

/-- The argument accepted by read/write: a path string, or a stream opened
in binary or text mode.  Whether a stream is binary is carried as a field;
the repository helper `is_binary` that inspects a real stream is not part
of the sources. -/
inductive FileArg where
  | path (p : String)
  | stream (binaryMode : Bool)
deriving Repr, DecidableEq

/-- Embedding of `BinaryCIFFile.read` (file.py 29-63): the first statement,
`bcif_file = BinaryCIFFile()`, raises `TypeError` inside `__init__`, so
`read` fails for every argument — path, binary stream and text stream
alike — before the binary-mode check on line 55 or any I/O is reached. -/
def BinaryCIFFile.readFile (_file : FileArg) : Except PyErr BCIFObj := do
  let f ← BinaryCIFFile.init
  .ok f

/-- Embedding of `BinaryCIFFile.write` (file.py 65-88): `write` is declared
a classmethod, so in `serializedObject = self._serialize()` the name `self`
is bound to the class and the unbound instance method `_serialize` is
called without its `self` argument, raising `TypeError` for every
argument before the binary-mode check on line 86 is reached. -/
def BinaryCIFFile.writeFile (_file : FileArg) : Except PyErr Unit :=
  .error (.typeError "_serialize missing 1 required positional argument")

/-- Embedding of `BinaryCIFFile._parse(raw_blocks)` (file.py 96-104).  For
each raw block the body constructs `DataBlock(block["header"],
block["categories"])` twice: the first instance is bound to `current` and
stored in `_block_map`, the second is appended to the returned list, so
the map and the list hold distinct objects.  Returns the new content list,
the updated block map and the next allocation id. -/
def BinaryCIFFile.parseBlocks (ctr : Nat)
    (block_map : List (String × DataBlockObj)) :
    List RVal →
    Except PyErr (List DataBlockObj × List (String × DataBlockObj) × Nat)
  | [] => .ok ([], block_map, ctr)
  | block :: rest => do
      let hdr ← block.getItem "header"
      let cats ← block.getItem "categories"
      let current ← DataBlock.init ctr hdr cats
      let second ← DataBlock.init (ctr + 1) hdr cats
      match hdr with
      | .str s => do
          let m := assocSet block_map s current
          let (blks, m2, c2) ← BinaryCIFFile.parseBlocks (ctr + 2) m rest
          .ok (second :: blks, m2, c2)
      | _ => .error (.typeError "unhashable key")

/-- Embedding of `BinaryCIFFile.get_block_headers` (file.py 106-118): the
loop header `for block in self._content():` calls `self._content`, which is
a list, so the method raises `TypeError` on every document; the
`sorted(blocks)` return of the collected set is never reached. -/
def BinaryCIFFile.getBlockHeaders (_f : BCIFObj) : Except PyErr (List String) :=
  .error (.typeError "list object is not callable")

/-- Embedding of `BinaryCIFFile.get_category(category, block=None)`
(file.py 120-148).  With `block` unspecified, line 139 calls
`get_block_headers`, which raises `TypeError`.  With an explicit block
header the method returns None when the header or the category is absent;
when the category exists, line 148 evaluates `category.__dict__()`,
calling the instance attribute dict as a function, which raises
`TypeError`. -/
def BinaryCIFFile.getCategory (f : BCIFObj) (category : String)
    (block : Option String) : Except PyErr RVal := do
  let blockName ← match block with
    | Option.none => do
        let hdrs ← BinaryCIFFile.getBlockHeaders f
        match hdrs with
        | [] => Except.error (PyErr.indexError "list index out of range")
        | h :: _ => Except.ok h
    | Option.some b => Except.ok b
  match List.lookup blockName f.block_map with
  | Option.none => .ok RVal.pyNone
  | Option.some blk =>
      match blk.getCat category with
      | Option.none => .ok RVal.pyNone
      | Option.some _ => .error (.typeError "dict object is not callable")

/-- Embedding of `BinaryCIFFile.set_category(category, category_dict,
block=None)` (file.py 150-182).  With `block` falsy (the None default),
line 173 calls `get_block_headers`, which raises `TypeError` — so on a
document with no blocks the new-block branch (lines 177-182) is never
reached; had `get_block_headers` returned, the assigned header would be
truthy and line 176 would run.  With a truthy block argument, line 176
evaluates `self._block_map(block)`, calling the dict as a function, which
raises `TypeError`. -/
def BinaryCIFFile.setCategoryDoc (f : BCIFObj) (_category : String)
    (_category_dict : RVal) (block : Option String) : Except PyErr BCIFObj := do
  match block with
  | Option.none => do
      let hdrs ← BinaryCIFFile.getBlockHeaders f
      match hdrs with
      | [] => Except.error (PyErr.indexError "list index out of range")
      | _ :: _ => Except.error (PyErr.typeError "dict object is not callable")
  | Option.some _ => .error (.typeError "dict object is not callable")

/-!
## Encoding transforms, modelled from the spec

The encoder/decoder pair for each step kind of spec section 4.1.  None of
this code is in the sources: `binarycif/decode.py` (the `decode_data`
import) is missing and `Data._encode` is an empty TODO stub, so these
definitions follow the spec text.  Real numbers in the fixed-point and
interval-quantization steps are modelled exactly as rationals.
-/

/-- Modelled from the spec: RunLengthEncoding encode (spec 4.1.4, decoder
module absent from the sources) — scan the input, grouping maximal runs of
equal adjacent elements into value/run-length pairs. -/
def runLengthEncodePairs : List Int → List (Int × Nat)
  | [] => []
  | v :: rest =>
    match runLengthEncodePairs rest with
    | [] => [(v, 1)]
    | (w, n) :: tail =>
      if v = w then (v, n + 1) :: tail else (v, 1) :: (w, n) :: tail

/-- Modelled from the spec: the value/run-length pairs are flattened as an
alternating integer sequence (spec 4.1.4). -/
def flattenPairs : List (Int × Nat) → List Int
  | [] => []
  | (v, n) :: rest => v :: (n : Int) :: flattenPairs rest

/-- Modelled from the spec: RunLengthEncoding encode, flattened form. -/
def runLengthEncode (xs : List Int) : List Int :=
  flattenPairs (runLengthEncodePairs xs)

/-- Modelled from the spec: RunLengthEncoding decode (spec 4.1.4, decoder
module absent from the sources) — input is alternating value/run-length
integers; expand each pair into run-length repeated copies of the value,
concatenated in order. -/
def runLengthDecode : List Int → List Int
  | v :: n :: rest => List.replicate n.toNat v ++ runLengthDecode rest
  | _ => []

/-- Modelled from the spec: DeltaEncoding encode tail (spec 4.1.5) — each
stored value is the current element minus the previous original element. -/
def deltaEncodeAux (prev : Int) : List Int → List Int
  | [] => []
  | v :: rest => (v - prev) :: deltaEncodeAux v rest

/-- Modelled from the spec: DeltaEncoding encode (spec 4.1.5, decoder module
absent from the sources) — first element unchanged, then successive
differences. -/
def deltaEncode : List Int → List Int
  | [] => []
  | v :: rest => v :: deltaEncodeAux v rest

/-- Modelled from the spec: DeltaEncoding decode tail (spec 4.1.5) —
prefix-sum reconstruction from a running accumulator. -/
def deltaDecodeAux (acc : Int) : List Int → List Int
  | [] => []
  | d :: rest => (acc + d) :: deltaDecodeAux (acc + d) rest

/-- Modelled from the spec: DeltaEncoding decode (spec 4.1.5, decoder module
absent from the sources) — first element taken as-is, each subsequent
element the cumulative sum of itself and all preceding decoded elements. -/
def deltaDecode : List Int → List Int
  | [] => []
  | v :: rest => v :: deltaDecodeAux v rest

/-- Modelled from the spec: rounding to the nearest integer with ties away
from zero (spec 4.1.2). -/
def roundHalfAway (q : ℚ) : Int :=
  if 0 ≤ q then ⌊q + 1 / 2⌋ else ⌈q - 1 / 2⌉

/-- Modelled from the spec: FixedPoint decode (spec 4.1.2, decoder module
absent from the sources) — divide each stored integer by the factor. -/
def fixedPointDecode (factor : ℚ) (xs : List Int) : List ℚ :=
  xs.map (fun i : Int => (i : ℚ) / factor)

/-- Modelled from the spec: FixedPoint encode (spec 4.1.2) — multiply by
the factor and round to nearest, ties away from zero. -/
def fixedPointEncode (factor : ℚ) (xs : List ℚ) : List Int :=
  xs.map (fun q => roundHalfAway (q * factor))

/-- Modelled from the spec: clamp an integer to the closed interval. -/
def clampInt (lo hi v : Int) : Int := max lo (min hi v)

/-- Modelled from the spec: IntervalQuantization decode (spec 4.1.3, decoder
module absent from the sources) — map each stored small integer linearly
into the closed interval from vmin to vmax. -/
def intervalDecode (vmin vmax : ℚ) (numSteps : Int) (xs : List Int) : List ℚ :=
  xs.map (fun i : Int => vmin + (i : ℚ) * (vmax - vmin) / ((numSteps : ℚ) - 1))

/-- Modelled from the spec: IntervalQuantization encode (spec 4.1.3) —
inverse linear mapping, then round and clamp to the step range. -/
def intervalEncode (vmin vmax : ℚ) (numSteps : Int) (xs : List ℚ) : List Int :=
  xs.map (fun q =>
    clampInt 0 (numSteps - 1)
      (roundHalfAway ((q - vmin) * ((numSteps : ℚ) - 1) / (vmax - vmin))))

/-- Modelled from the spec: the positive sentinel of a signed packed width,
the width's maximum value (spec 4.1.6). -/
def packUpper (byteCount : Nat) : Int := 2 ^ (8 * byteCount - 1) - 1

/-- Modelled from the spec: the negative sentinel of a signed packed width,
the width's minimum value (spec 4.1.6). -/
def packLower (byteCount : Nat) : Int := -(2 ^ (8 * byteCount - 1))

/-- Modelled from the spec: IntegerPacking encode of one logical integer
(spec 4.1.6) — emit as many sentinel-valued entries as needed for the
magnitude in the chosen width, terminated by the remainder. -/
def packOne (u l v : Int) : List Int :=
  if 0 ≤ v then
    List.replicate (v.toNat / u.toNat) u ++ [((v.toNat % u.toNat : Nat) : Int)]
  else
    List.replicate (v.natAbs / l.natAbs) l ++ [-((v.natAbs % l.natAbs : Nat) : Int)]

/-- Modelled from the spec: IntegerPacking encode over an array. -/
def integerPack (u l : Int) (xs : List Int) : List Int :=
  List.flatten (xs.map (packOne u l))

/-- Modelled from the spec: IntegerPacking decode accumulator (spec 4.1.6,
decoder module absent from the sources) — a sentinel-valued entry adds its
contribution and continues the chain; a non-sentinel entry terminates the
chain and the accumulated total is the logical integer. -/
def unpackAux (u l acc : Int) : List Int → List Int
  | [] => []
  | t :: rest =>
    if t = u ∨ t = l then unpackAux u l (acc + t) rest
    else (acc + t) :: unpackAux u l 0 rest

/-- Modelled from the spec: IntegerPacking decode. -/
def integerUnpack (u l : Int) (xs : List Int) : List Int := unpackAux u l 0 xs

/-- Modelled from the spec: ByteArray encode of one unsigned element into
its little-endian bytes of the given width (spec 4.1.1). -/
def toLEBytes : Nat → Nat → List Nat
  | 0, _ => []
  | w + 1, v => v % 256 :: toLEBytes w (v / 256)

/-- Modelled from the spec: ByteArray encode (spec 4.1.1, encoder is a TODO
stub in the sources) — concatenated little-endian bytes of each element. -/
def byteArrayEncode (w : Nat) (xs : List Nat) : List Nat :=
  List.flatten (xs.map (toLEBytes w))

/-- Modelled from the spec: read back one little-endian byte group. -/
def fromLEBytes : List Nat → Nat
  | [] => 0
  | b :: bs => b + 256 * fromLEBytes bs

/-- Modelled from the spec: ByteArray decode worker — split the byte stream
into groups of w+1 bytes and reinterpret each group little-endian. -/
def byteArrayDecodeAux (w : Nat) : List Nat → List Nat
  | [] => []
  | b :: bs =>
    fromLEBytes (b :: List.take w bs) :: byteArrayDecodeAux w (List.drop w bs)
  termination_by bs => bs.length
  decreasing_by simp [List.length_drop]; omega

/-- Modelled from the spec: ByteArray decode (spec 4.1.1, decoder module
absent from the sources) — reinterpret the raw byte buffer as a typed
array of the given element width, little-endian; modelled at the unsigned
element types. -/
def byteArrayDecode (w : Nat) (bs : List Nat) : List Nat :=
  byteArrayDecodeAux (w - 1) bs

/-- Modelled from the spec: append a string to the dictionary unless it is
already present (spec 4.1.7). -/
def addToDict (d : List String) (s : String) : List String :=
  if s ∈ d then d else d ++ [s]

/-- Modelled from the spec: StringArrayEncoding dictionary of
first-occurrence-ordered unique values (spec 4.1.7, decoder module absent
from the sources). -/
def buildDict (xs : List String) : List String := xs.foldl addToDict []

/-- Modelled from the spec: index of a string in the dictionary. -/
def idxOf (s : String) : List String → Nat
  | [] => 0
  | t :: ts => if s = t then 0 else idxOf s ts + 1

/-- Modelled from the spec: StringArrayEncoding encode — map each row to
its dictionary index (spec 4.1.7). -/
def stringArrayEncodeIdx (xs : List String) : List Int :=
  xs.map (fun s => (idxOf s (buildDict xs) : Int))

/-- Modelled from the spec: StringArrayEncoding decode (spec 4.1.7, decoder
module absent from the sources) — per-row indices into the dictionary,
with -1 denoting the empty string. -/
def stringArrayDecode (d : List String) (idxs : List Int) : List String :=
  idxs.map (fun i => if i = -1 then "" else d.getD i.toNat "")

/-- A concrete category object in the post-construction shape the skeleton
produces (its `_name` and `_row_count` are None regardless of input). -/
def sampleCat : CategoryObj := CategoryObj.mk [] RVal.pyNone RVal.pyNone

/-- A concrete data block with header "A" holding the category "atom_site",
assembled directly in the intended post-parse shape (the embedded
constructors themselves raise on such input). -/
def sampleBlock : DataBlockObj :=
  DataBlockObj.mk 0 (RVal.str "A") [sampleCat] [("atom_site", sampleCat)]

/-- A concrete document whose single block "A" holds "atom_site". -/
def sampleDoc : BCIFObj := BCIFObj.mk [sampleBlock] [("A", sampleBlock)]

/-- A concrete document with two data blocks in document order "B", "A":
the insertion order differs from the alphabetical order. -/
def sampleDocBA : BCIFObj :=
  BCIFObj.mk
    [DataBlockObj.mk 0 (RVal.str "B") [] [],
     DataBlockObj.mk 1 (RVal.str "A") [] []]
    [("B", DataBlockObj.mk 0 (RVal.str "B") [] []),
     ("A", DataBlockObj.mk 1 (RVal.str "A") [] [])]

/-!
## Round-trip lemmas for the modelled transforms
-/

theorem runLengthDecode_cons (v : Int) (n : Nat) (rest : List Int) :
    runLengthDecode (v :: (n : Int) :: rest) =
      List.replicate n v ++ runLengthDecode rest := by
  simp [runLengthDecode]

theorem runLength_roundtrip (xs : List Int) :
    runLengthDecode (runLengthEncode xs) = xs := by
  unfold runLengthEncode
  induction xs with
  | nil => rfl
  | cons v rest ih =>
    cases h : runLengthEncodePairs rest with
    | nil =>
      have hrest : rest = [] := by
        rw [h] at ih
        simpa [flattenPairs, runLengthDecode] using ih.symm
      subst hrest
      simp [runLengthEncodePairs, flattenPairs, runLengthDecode]
    | cons p tail =>
      obtain ⟨w, n⟩ := p
      rw [h] at ih
      by_cases hv : v = w
      · subst hv
        simp only [runLengthEncodePairs, h, if_pos rfl, flattenPairs]
        rw [runLengthDecode_cons]
        rw [flattenPairs, runLengthDecode_cons] at ih
        simp only [List.replicate_succ, List.cons_append, ih]
      · simp only [runLengthEncodePairs, h, if_neg hv, flattenPairs]
        rw [show ((1 : Nat) : Int) = ((1 : Nat) : Int) from rfl, runLengthDecode_cons]
        rw [flattenPairs] at ih
        simp [ih]

theorem deltaDecodeAux_encodeAux (p : Int) (xs : List Int) :
    deltaDecodeAux p (deltaEncodeAux p xs) = xs := by
  induction xs generalizing p with
  | nil => rfl
  | cons v rest ih =>
    have hv : p + (v - p) = v := by ring
    simp [deltaEncodeAux, deltaDecodeAux, hv, ih]

theorem delta_roundtrip (xs : List Int) :
    deltaDecode (deltaEncode xs) = xs := by
  cases xs with
  | nil => rfl
  | cons v rest => simp [deltaEncode, deltaDecode, deltaDecodeAux_encodeAux]

theorem roundHalfAway_intCast (i : Int) : roundHalfAway (i : ℚ) = i := by
  unfold roundHalfAway
  split
  · rw [show ((i : ℚ) + 1 / 2) = 1 / 2 + (i : ℚ) by ring, Int.floor_add_int]
    norm_num [Int.floor_eq_zero_iff]
  · rw [show ((i : ℚ) - 1 / 2) = -(1 / 2) + (i : ℚ) by ring, Int.ceil_add_int]
    norm_num [Int.ceil_eq_zero_iff]

theorem fixedPoint_roundtrip (factor : ℚ) (hf : 0 < factor) (y : List Int) :
    fixedPointDecode factor
        (fixedPointEncode factor (fixedPointDecode factor y)) =
      fixedPointDecode factor y := by
  unfold fixedPointDecode fixedPointEncode
  rw [List.map_map, List.map_map]
  apply List.map_eq_map_iff.mpr
  intro i _
  simp only [Function.comp_apply]
  rw [div_mul_cancel₀ _ (ne_of_gt hf), roundHalfAway_intCast]

theorem interval_roundtrip (vmin vmax : ℚ) (numSteps : Int)
    (hs : 2 ≤ numSteps) (hmm : vmin < vmax) (y : List Int)
    (hy : ∀ i ∈ y, 0 ≤ i ∧ i ≤ numSteps - 1) :
    intervalDecode vmin vmax numSteps
        (intervalEncode vmin vmax numSteps (intervalDecode vmin vmax numSteps y)) =
      intervalDecode vmin vmax numSteps y := by
  have hS : ((numSteps : ℚ) - 1) ≠ 0 := by
    have : (2 : ℚ) ≤ (numSteps : ℚ) := by exact_mod_cast hs
    linarith
  have hd : (vmax - vmin) ≠ 0 := sub_ne_zero_of_ne (ne_of_gt hmm)
  unfold intervalDecode intervalEncode
  rw [List.map_map, List.map_map]
  apply List.map_eq_map_iff.mpr
  intro i hi
  obtain ⟨h0, h1⟩ := hy i hi
  simp only [Function.comp_apply]
  have harg : (vmin + (i : ℚ) * (vmax - vmin) / ((numSteps : ℚ) - 1) - vmin) *
      ((numSteps : ℚ) - 1) / (vmax - vmin) = (i : ℚ) := by
    field_simp
    ring
  rw [harg, roundHalfAway_intCast]
  have hclamp : clampInt 0 (numSteps - 1) i = i := by
    unfold clampInt
    omega
  rw [hclamp]

theorem unpackAux_replicate_sentinel (u l s t : Int) (hs : s = u ∨ s = l)
    (htu : t ≠ u) (htl : t ≠ l) (k : Nat) (acc : Int) (rest : List Int) :
    unpackAux u l acc (List.replicate k s ++ t :: rest) =
      (acc + k * s + t) :: unpackAux u l 0 rest := by
  induction k generalizing acc with
  | zero =>
    simp only [List.replicate_zero, List.nil_append, unpackAux]
    rw [if_neg (by tauto)]
    simp
  | succ k ih =>
    rw [List.replicate_succ, List.cons_append, unpackAux, if_pos hs, ih]
    congr 1
    push_cast
    ring

theorem unpackAux_packOne (u l : Int) (hu : 1 ≤ u) (hl : l ≤ -1)
    (v acc : Int) (rest : List Int) :
    unpackAux u l acc (packOne u l v ++ rest) =
      (acc + v) :: unpackAux u l 0 rest := by
  unfold packOne
  by_cases hv : 0 ≤ v
  · rw [if_pos hv]
    have hb : 0 < u.toNat := by omega
    set k := v.toNat / u.toNat with hk
    set m := v.toNat % u.toNat with hm
    have key : k * u.toNat + m = v.toNat := by
      rw [Nat.mul_comm]
      exact Nat.div_add_mod v.toNat u.toNat
    have hmlt : m < u.toNat := Nat.mod_lt v.toNat hb
    have huc : ((u.toNat : Nat) : Int) = u := Int.toNat_of_nonneg (by omega)
    have hvc : ((v.toNat : Nat) : Int) = v := Int.toNat_of_nonneg hv
    rw [List.append_assoc, List.singleton_append,
      unpackAux_replicate_sentinel u l u _ (Or.inl rfl)
        (by omega) (by omega)]
    congr 1
    have keyZ := congrArg (fun n : Nat => (n : Int)) key
    simp only [Nat.cast_add, Nat.cast_mul] at keyZ
    rw [huc, hvc] at keyZ
    linarith [keyZ]
  · rw [if_neg hv]
    have hb : 0 < l.natAbs := by
      have := Int.natAbs_pos.mpr (show l ≠ 0 by omega)
      omega
    set k := v.natAbs / l.natAbs with hk
    set m := v.natAbs % l.natAbs with hm
    have key : k * l.natAbs + m = v.natAbs := by
      rw [Nat.mul_comm]
      exact Nat.div_add_mod v.natAbs l.natAbs
    have hmlt : m < l.natAbs := Nat.mod_lt v.natAbs hb
    have hlc : ((l.natAbs : Nat) : Int) = -l := Int.ofNat_natAbs_of_nonpos (by omega)
    have hvc : ((v.natAbs : Nat) : Int) = -v := Int.ofNat_natAbs_of_nonpos (by omega)
    rw [List.append_assoc, List.singleton_append,
      unpackAux_replicate_sentinel u l l _ (Or.inr rfl)
        (by omega) (by omega)]
    congr 1
    have keyZ := congrArg (fun n : Nat => (n : Int)) key
    simp only [Nat.cast_add, Nat.cast_mul] at keyZ
    rw [hlc, hvc] at keyZ
    linarith [keyZ]

theorem integerPack_roundtrip (u l : Int) (hu : 1 ≤ u) (hl : l ≤ -1)
    (xs : List Int) : integerUnpack u l (integerPack u l xs) = xs := by
  unfold integerUnpack integerPack
  induction xs with
  | nil => rfl
  | cons v rest ih =>
    simp only [List.map_cons, List.flatten_cons]
    rw [unpackAux_packOne u l hu hl v 0 _, zero_add, ih]

theorem length_toLEBytes (w v : Nat) : (toLEBytes w v).length = w := by
  induction w generalizing v with
  | zero => rfl
  | succ w ih => simp [toLEBytes, ih]

theorem fromLEBytes_toLEBytes (w v : Nat) (h : v < 256 ^ w) :
    fromLEBytes (toLEBytes w v) = v := by
  induction w generalizing v with
  | zero =>
    simp only [toLEBytes, fromLEBytes]
    omega
  | succ w ih =>
    simp only [toLEBytes, fromLEBytes]
    rw [ih (v / 256) (by
      have hp : 256 ^ (w + 1) = 256 ^ w * 256 := by ring
      rw [hp] at h
      omega)]
    exact Nat.mod_add_div v 256

theorem byteArrayDecodeAux_append (w : Nat) (g : List Nat)
    (hg : g.length = w + 1) (rest : List Nat) :
    byteArrayDecodeAux w (g ++ rest) =
      fromLEBytes g :: byteArrayDecodeAux w rest := by
  cases g with
  | nil => simp at hg
  | cons b bs =>
    have hbs : bs.length = w := by simpa using hg
    rw [List.cons_append, byteArrayDecodeAux]
    rw [← hbs, List.take_left, List.drop_left]

theorem byteArray_roundtrip (w : Nat) (hw : 1 ≤ w) (xs : List Nat)
    (hx : ∀ v ∈ xs, v < 256 ^ w) :
    byteArrayDecode w (byteArrayEncode w xs) = xs := by
  obtain ⟨w2, rfl⟩ : ∃ w2, w = w2 + 1 := ⟨w - 1, by omega⟩
  unfold byteArrayDecode byteArrayEncode
  simp only [Nat.add_sub_cancel]
  induction xs with
  | nil => simp [byteArrayDecodeAux]
  | cons v rest ih =>
    simp only [List.map_cons, List.flatten_cons]
    rw [byteArrayDecodeAux_append w2 _ (length_toLEBytes (w2 + 1) v) _,
      fromLEBytes_toLEBytes _ _ (hx v (by simp)),
      ih (fun x hxm => hx x (by simp [hxm]))]

theorem mem_foldl_addToDict (s : String) (xs : List String) :
    ∀ acc : List String, s ∈ acc ∨ s ∈ xs → s ∈ xs.foldl addToDict acc := by
  induction xs with
  | nil =>
    intro acc h
    rcases h with h | h
    · exact h
    · cases h
  | cons x rest ih =>
    intro acc h
    apply ih
    rcases h with h | h
    · left
      unfold addToDict
      split
      · exact h
      · simp [h]
    · rcases List.mem_cons.mp h with rfl | h2
      · left
        unfold addToDict
        split
        · assumption
        · simp
      · right
        exact h2

theorem getD_idxOf (s : String) (d : List String) (h : s ∈ d) :
    d.getD (idxOf s d) "" = s := by
  induction d with
  | nil => cases h
  | cons t ts ih =>
    by_cases hs : s = t
    · simp [idxOf, hs]
    · have h2 : s ∈ ts := by
        rcases List.mem_cons.mp h with h1 | h1
        · exact absurd h1 hs
        · exact h1
      rw [show idxOf s (t :: ts) = idxOf s ts + 1 by simp [idxOf, hs],
        List.getD_cons_succ]
      exact ih h2

theorem stringArrayDecode_map_idxOf (d : List String) (ys : List String)
    (h : ∀ s ∈ ys, s ∈ d) :
    stringArrayDecode d (ys.map (fun s => (idxOf s d : Int))) = ys := by
  induction ys with
  | nil => rfl
  | cons a rest ih =>
    have ha : a ∈ d := h a (by simp)
    unfold stringArrayDecode
    simp only [List.map_cons, List.map_map]
    rw [if_neg (by omega), Int.toNat_natCast, getD_idxOf a d ha]
    have htail := ih (fun s hs => h s (by simp [hs]))
    unfold stringArrayDecode at htail
    rw [List.map_map] at htail
    rw [htail]

theorem stringArray_roundtrip (xs : List String) :
    stringArrayDecode (buildDict xs) (stringArrayEncodeIdx xs) = xs := by
  unfold stringArrayEncodeIdx
  exact stringArrayDecode_map_idxOf (buildDict xs) xs
    (fun s hs => by
      unfold buildDict
      exact mem_foldl_addToDict s xs [] (Or.inr hs))

/-!
## Claim theorems
-/

/-- C1: the claim says that on a document with no data blocks, set_category
with block unspecified creates a new block (header auto-derived from the
category name), appends it, and makes the category retrievable.  Evaluated
on the code, set_category with block unspecified on the empty document
raises TypeError inside get_block_headers (the list `self._content` is
called as a function), so the block-creation branch of lines 177-182 is
never reached. -/
theorem C1_set_category_on_empty_document_raises :
    BinaryCIFFile.setCategoryDoc (BCIFObj.mk [] []) "cell"
      (RVal.dict [("name", RVal.str "cell"), ("rowCount", RVal.int 1),
        ("columns", RVal.list [])]) Option.none
      = Except.error (PyErr.typeError "list object is not callable") := rfl

/-- C2: for every encoding step kind, decoding the result of encoding an
input array with that step yields exactly the input, over each step's
domain of exactly representable arrays: run-length and delta on all
integer arrays; byte-array on arrays of elements within the element width;
integer packing for every packed byte width at that width's sentinels;
string arrays on all string arrays; and fixed-point and interval
quantization on the exactly representable values, i.e. the decodes of
stored integer arrays (the fixed-point step is documented as lossy on
arbitrary reals).  These transforms are modelled from the spec, since the
decoder module and the encoder are missing from the sources. -/
theorem C2_encode_decode_roundtrip :
    (∀ xs : List Int, runLengthDecode (runLengthEncode xs) = xs) ∧
    (∀ xs : List Int, deltaDecode (deltaEncode xs) = xs) ∧
    (∀ w : Nat, 1 ≤ w → ∀ xs : List Nat, (∀ v ∈ xs, v < 256 ^ w) →
      byteArrayDecode w (byteArrayEncode w xs) = xs) ∧
    (∀ w : Nat, 1 ≤ w → ∀ xs : List Int,
      integerUnpack (packUpper w) (packLower w)
        (integerPack (packUpper w) (packLower w) xs) = xs) ∧
    (∀ factor : ℚ, 0 < factor → ∀ y : List Int,
      fixedPointDecode factor
          (fixedPointEncode factor (fixedPointDecode factor y)) =
        fixedPointDecode factor y) ∧
    (∀ vmin vmax : ℚ, ∀ numSteps : Int, 2 ≤ numSteps → vmin < vmax →
      ∀ y : List Int, (∀ i ∈ y, 0 ≤ i ∧ i ≤ numSteps - 1) →
      intervalDecode vmin vmax numSteps
          (intervalEncode vmin vmax numSteps
            (intervalDecode vmin vmax numSteps y)) =
        intervalDecode vmin vmax numSteps y) ∧
    (∀ xs : List String,
      stringArrayDecode (buildDict xs) (stringArrayEncodeIdx xs) = xs) := by
  refine ⟨runLength_roundtrip, delta_roundtrip, byteArray_roundtrip, ?_,
    fixedPoint_roundtrip, interval_roundtrip, stringArray_roundtrip⟩
  intro w hw xs
  apply integerPack_roundtrip
  · have h : (2 : Int) ^ 1 ≤ 2 ^ (8 * w - 1) :=
      pow_le_pow_right₀ (by norm_num) (by omega)
    unfold packUpper
    omega
  · have h : (0 : Int) < 2 ^ (8 * w - 1) := pow_pos (by norm_num) _
    unfold packLower
    omega

/-- C2 witness: the round-trip theorem applied at concrete boundary inputs
of each step kind — empty, single-element, all-equal and strictly monotonic
arrays, a value spanning the one-byte packed sentinel, and strings with
repeated and empty values. -/
theorem C2_encode_decode_roundtrip_witness :
    runLengthDecode (runLengthEncode []) = [] ∧
    runLengthDecode (runLengthEncode [7]) = [7] ∧
    runLengthDecode (runLengthEncode [5, 5, 5, 5]) = [5, 5, 5, 5] ∧
    deltaDecode (deltaEncode [1, 2, 3, 4]) = [1, 2, 3, 4] ∧
    byteArrayDecode 2 (byteArrayEncode 2 [0, 1, 300, 65535]) = [0, 1, 300, 65535] ∧
    integerUnpack (packUpper 1) (packLower 1)
      (integerPack (packUpper 1) (packLower 1) [0, 127, 128, -128, 300])
      = [0, 127, 128, -128, 300] ∧
    fixedPointDecode 100
        (fixedPointEncode 100 (fixedPointDecode 100 [50, -125]))
      = fixedPointDecode 100 [50, -125] ∧
    intervalDecode 0 1 3
        (intervalEncode 0 1 3 (intervalDecode 0 1 3 [0, 1, 2]))
      = intervalDecode 0 1 3 [0, 1, 2] ∧
    stringArrayDecode (buildDict ["a", "", "b", "a"])
        (stringArrayEncodeIdx ["a", "", "b", "a"]) = ["a", "", "b", "a"] :=
  ⟨C2_encode_decode_roundtrip.1 [],
   C2_encode_decode_roundtrip.1 [7],
   C2_encode_decode_roundtrip.1 [5, 5, 5, 5],
   C2_encode_decode_roundtrip.2.1 [1, 2, 3, 4],
   C2_encode_decode_roundtrip.2.2.1 2 (by norm_num) [0, 1, 300, 65535] (by decide),
   C2_encode_decode_roundtrip.2.2.2.1 1 (by norm_num) [0, 127, 128, -128, 300],
   C2_encode_decode_roundtrip.2.2.2.2.1 100 (by norm_num) [50, -125],
   C2_encode_decode_roundtrip.2.2.2.2.2.1 0 1 3 (by norm_num) (by norm_num)
     [0, 1, 2] (by decide),
   C2_encode_decode_roundtrip.2.2.2.2.2.2 ["a", "", "b", "a"]⟩

/-- C3: the claim says get_category returns None when the resolved block
has no category of that name, and otherwise a mapping of column names to
decoded values.  Evaluated on the code, the None half holds for an
explicitly named block, but when the category exists the method evaluates
`category.__dict__()` — calling the instance attribute dict — and raises
TypeError instead of returning a mapping; and the default-block path
raises TypeError inside get_block_headers. -/
theorem C3_get_category_raises_on_present_category :
    (BinaryCIFFile.getCategory sampleDoc "missing" (Option.some "A")
      = Except.ok RVal.pyNone) ∧
    (BinaryCIFFile.getCategory sampleDoc "atom_site" (Option.some "A")
      = Except.error (PyErr.typeError "dict object is not callable")) ∧
    (BinaryCIFFile.getCategory sampleDoc "atom_site" Option.none
      = Except.error (PyErr.typeError "list object is not callable")) :=
  ⟨rfl, rfl, rfl⟩

/-- C4: the claim says block headers are exposed in document (insertion)
order and the default block resolves to the first block in that order.
Evaluated on the code, get_block_headers calls `self._content()` — the
list called as a function — and raises TypeError on every document (were
that call repaired, it would return a sorted set, not insertion order),
so the default-block resolution in get_category raises as well. -/
theorem C4_get_block_headers_raises :
    (BinaryCIFFile.getBlockHeaders sampleDocBA
      = Except.error (PyErr.typeError "list object is not callable")) ∧
    (BinaryCIFFile.getCategory sampleDocBA "anything" Option.none
      = Except.error (PyErr.typeError "list object is not callable")) :=
  ⟨rfl, rfl⟩

/-- C5: the claim says a non-binary stream makes read and write raise a
type/usage error while a path string or binary stream is accepted.
Evaluated on the code, read raises TypeError for every argument (its first
statement constructs BinaryCIFFile(), whose __init__ subscript-assigns a
string key into a list) and write raises TypeError for every argument
(declared a classmethod, it calls the unbound `_serialize` without a
self), both before the binary-mode check is reached — so nothing is ever
accepted. -/
theorem C5_read_write_raise_for_every_argument :
    (BinaryCIFFile.readFile (FileArg.path "structure.bcif")
      = Except.error (PyErr.typeError
          "list indices must be integers or slices, not str")) ∧
    (BinaryCIFFile.readFile (FileArg.stream true)
      = Except.error (PyErr.typeError
          "list indices must be integers or slices, not str")) ∧
    (BinaryCIFFile.readFile (FileArg.stream false)
      = Except.error (PyErr.typeError
          "list indices must be integers or slices, not str")) ∧
    (BinaryCIFFile.writeFile (FileArg.path "structure.bcif")
      = Except.error (PyErr.typeError
          "_serialize missing 1 required positional argument")) ∧
    (BinaryCIFFile.writeFile (FileArg.stream true)
      = Except.error (PyErr.typeError
          "_serialize missing 1 required positional argument")) ∧
    (BinaryCIFFile.writeFile (FileArg.stream false)
      = Except.error (PyErr.typeError
          "_serialize missing 1 required positional argument")) :=
  ⟨rfl, rfl, rfl, rfl, rfl, rfl⟩

/-- C6: the claim says the header lookup map is consistent with the
ordered block list — looking up a header yields the same block object
that occupies the corresponding list position.  Evaluated on the code,
_parse constructs DataBlock twice per raw block and stores the first
instance in the map while appending the second to the list, so the map
and the list hold distinct objects (allocation ids 0 and 1). -/
theorem C6_parse_stores_distinct_objects_in_map_and_list :
    (BinaryCIFFile.parseBlocks 0 []
        [RVal.dict [("header", RVal.str "A"), ("categories", RVal.list [])]]
      = Except.ok ([DataBlockObj.mk 1 (RVal.str "A") [] []],
          [("A", DataBlockObj.mk 0 (RVal.str "A") [] [])], 2)) ∧
    (DataBlockObj.mk 0 (RVal.str "A") [] []).objId ≠
      (DataBlockObj.mk 1 (RVal.str "A") [] []).objId :=
  ⟨rfl, by decide⟩

/-- C7: the claim says DataBlock.set_category is insert-or-replace,
replacing an existing category in place and keeping names unique.
Evaluated on the code, when the category exists the guard
`if self.get_category(category_name):` evaluates the truthiness of the
Category instance, whose `__len__` is declared without a self parameter,
so the call raises TypeError (and the branch lacks an else, so the append
of a same-named duplicate would follow regardless). -/
theorem C7_set_category_replace_path_raises :
    DataBlockObj.setCat sampleBlock "atom_site"
      (RVal.dict [("name", RVal.str "atom_site"), ("rowCount", RVal.int 1),
        ("columns", RVal.list [])])
      = Except.error (PyErr.typeError
          "__len__ takes 0 positional arguments but 1 was given") := rfl

/-- C8: the claim says a column parsed without a mask entry constructs
successfully with all rows present and serializes without a mask field.
Evaluated on the code, _build_columns subscripts `col['mask']`, so a
column map with no mask key raises KeyError, and Column._serialize reads
an undefined bare name `mask` and raises NameError on every column. -/
theorem C8_maskless_column_raises_keyerror :
    (Category.buildColumns
        [RVal.dict [("name", RVal.str "x"),
          ("data", RVal.dict [("data", RVal.int 0), ("encoding", RVal.list [])])]]
      = Except.error (PyErr.keyError "mask")) ∧
    (ColumnObj.serialize
        (ColumnObj.mk (Data.init (RVal.int 0) (RVal.list [])) (RVal.str "x")
          (Data.init RVal.pyNone RVal.pyNone))
      = Except.error (PyErr.nameError "mask")) :=
  ⟨rfl, rfl⟩

/-- C9: the claim says a category built from a parsed map with name n and
row count r carries name n and row count r.  Evaluated on the code,
Category.__init__ discards both arguments and sets `_name` and
`_row_count` to None. -/
theorem C9_category_constructor_discards_name_and_row_count :
    (Category.init (RVal.str "atom_site") (RVal.int 2)
        (RVal.list [RVal.dict [("name", RVal.str "x"),
          ("data", RVal.dict [("data", RVal.int 0), ("encoding", RVal.list [])]),
          ("mask", RVal.dict [("data", RVal.int 0), ("encoding", RVal.list [])])]])
      = Except.ok (CategoryObj.mk
          [ColumnObj.mk (Data.init (RVal.int 0) (RVal.list [])) (RVal.str "x")
            (Data.init (RVal.int 0) (RVal.list []))]
          RVal.pyNone RVal.pyNone)) ∧
    RVal.pyNone ≠ RVal.str "atom_site" ∧ RVal.pyNone ≠ RVal.int 2 :=
  ⟨rfl, fun h => RVal.noConfusion h, fun h => RVal.noConfusion h⟩

/-- C10: the claim says constructing a fresh BinaryCIFFile succeeds and
yields an empty document.  Evaluated on the code, __init__ executes
`self._content = []` followed by `self._content["encoder"] = "UNKNOWN"`,
subscript-assigning a string key into a list, which raises TypeError on
every construction — including the one at the start of every read. -/
theorem C10_fresh_constructor_raises :
    BinaryCIFFile.init
      = Except.error (PyErr.typeError
          "list indices must be integers or slices, not str") := rfl
